import Mathlib

/-!
Shallow embedding of the VTPT meter tracking application (a Next.js front-end
plus API proxy routes).  Pure string / calendar / queue logic is translated
from the TypeScript source; browser and network effects are made explicit
(state passing, outcome parameters).  JavaScript strings are modelled by
`String` with helper functions mirroring the JS string operations used by the
source (`trim`, `split`, `Number`, template rendering of numbers,
`padStart(2, "0")`).  JavaScript `Date` values are modelled by their epoch
time in minutes (`Int`); calendar components under a fixed UTC offset are
computed with the standard civil-from-days algorithm, which models what
`Intl.DateTimeFormat` / the local `Date` accessors return.
-/

namespace VtptMeter

/-- Numeric value of a decimal digit character (models `charCode - 48`). -/
def digitVal (c : Char) : Nat := c.toNat - 48

/-- Whitespace test used by the model of JavaScript `String.prototype.trim`. -/
def isWsChar (c : Char) : Bool := c = ' ' || c = '\t' || c = '\n' || c = '\r'

/-- Character-list model of JavaScript `trim`: drop whitespace at both ends. -/
def trimChars (l : List Char) : List Char :=
  ((l.dropWhile isWsChar).reverse.dropWhile isWsChar).reverse

/-- Model of JavaScript `String.prototype.trim`. -/
def jsTrim (s : String) : String := String.mk (trimChars s.data)

/-- Little-endian decimal digits of a natural number, with explicit fuel so
that the definition is structural and kernel-reducible. -/
def natDigitsAux : Nat → Nat → List Char
  | 0, _ => []
  | fuel + 1, n =>
    if n < 10 then [Nat.digitChar n]
    else Nat.digitChar (n % 10) :: natDigitsAux fuel (n / 10)

/-- Decimal digit characters of a natural number, most significant first
(models JavaScript number-to-string rendering of a nonnegative integer). -/
def natChars (n : Nat) : List Char := (natDigitsAux (n + 1) n).reverse

/-- Decimal rendering of an integer (models JavaScript template rendering of
an integer-valued number, e.g. a `getFullYear()` result). -/
def intChars (i : Int) : List Char :=
  if i < 0 then '-' :: natChars i.natAbs else natChars i.toNat

/-- Model of the source `pad2` helpers: `String(n).padStart(2, "0")`. -/
def pad2Chars (n : Nat) : List Char :=
  let l := natChars n
  List.replicate (2 - l.length) '0' ++ l

/-- Split a character list at every occurrence of `c`
(models JavaScript `String.prototype.split` with a one-character separator). -/
def splitChars (c : Char) : List Char → List (List Char)
  | [] => [[]]
  | x :: xs =>
    let r := splitChars c xs
    if x = c then [] :: r
    else
      match r with
      | [] => [[x]]
      | p :: ps => (x :: p) :: ps

/-- Accumulating decimal parse of a digit-character list. -/
def parseDigitsAux (acc : Nat) : List Char → Option Nat
  | [] => some acc
  | c :: cs => if c.isDigit then parseDigitsAux (acc * 10 + digitVal c) cs else none

/-- Model of JavaScript `Number(s)` for the strings reachable in this code
base (whitespace-padded decimal digit strings): trims, maps the empty string
to `0`, digit strings to their value, and anything else to `NaN` (`none`). -/
def jsNumber (l : List Char) : Option Int :=
  let t := trimChars l
  if t = [] then some 0
  else (parseDigitsAux 0 t).map (fun n => (n : Int))

/-- Character-level test for the month-key shape `YYYY-MM`. -/
def isMonthKeyChars : List Char → Bool
  | [a, b, c, d, e, f, g] =>
    a.isDigit && b.isDigit && c.isDigit && d.isDigit && e = '-' && f.isDigit && g.isDigit
  | _ => false

/-- Model of the source `isMonthKey` / `isMonthKeyChars` regex test
`/^\d{4}-\d{2}$/.test(String(s || "").trim())`. -/
def isMonthKey (s : String) : Bool := isMonthKeyChars (trimChars s.data)

/-- Civil date (year, month 1..12, day 1..31) from a count of days since the
Unix epoch: the standard civil-from-days algorithm, modelling the Gregorian
calendar computations done by `Intl.DateTimeFormat` and `Date` accessors.
All divisions are Euclidean (`Int` division by a positive constant floors). -/
def civilFromDays (z0 : Int) : Int × Int × Int :=
  let z := z0 + 719468
  let era := z / 146097
  let doe := z % 146097
  let yoe := (doe - doe / 1460 + doe / 36524 - doe / 146096) / 365
  let doy := doe - (365 * yoe + yoe / 4 - yoe / 100)
  let mp := (5 * doy + 2) / 153
  let d := doy - (153 * mp + 2) / 5 + 1
  let m := if mp < 10 then mp + 3 else mp - 9
  let y := yoe + era * 400
  (if m ≤ 2 then y + 1 else y, m, d)

/-- Inverse of `civilFromDays`: days since the Unix epoch of a civil date.
Used to construct concrete test instants. -/
def daysFromCivil (y0 m d : Int) : Int :=
  let y := if m ≤ 2 then y0 - 1 else y0
  let era := y / 400
  let yoe := y - era * 400
  let mp := if 2 < m then m - 3 else m + 9
  let doy := (153 * mp + 2) / 5 + d - 1
  let doe := yoe * 365 + yoe / 4 - yoe / 100 + doy
  era * 146097 + doe - 719468

/-- Minutes per day. -/
def minutesPerDay : Int := 1440

/-- Fixed UTC offset of the `Asia/Ho_Chi_Minh` timezone, in minutes (UTC+7,
no daylight saving). -/
def vnOffsetMinutes : Int := 420

/-- Calendar components of an instant (minutes since the Unix epoch, UTC)
under a UTC offset given in minutes: models `getFullYear`/`getMonth`/
`getDate` in a timezone with that offset. -/
def localCivil (offMin t : Int) : Int × Int × Int :=
  civilFromDays ((t + offMin) / minutesPerDay)

/-- UTC instant (minutes since the Unix epoch) of a UTC wall-clock time. -/
def utcInstant (y m d hh mi : Int) : Int :=
  daysFromCivil y m d * minutesPerDay + hh * 60 + mi

/-- Rendering shared by the source month-key template literals:
`y-pad2(m)` with the year rendered as a plain number. -/
def monthKeyRender (y : Int) (m : Nat) : String :=
  String.mk (intChars y ++ '-' :: pad2Chars m)

/-- Model of `new Date(y, mIdx, 1)` followed by `setMonth(getMonth() + 1)`:
the (year, month index) pair JavaScript normalizes to, including the `Date`
constructor's remapping of years 0–99 to 1900–1999.  Division by the positive
constant 12 floors, as JavaScript month normalization does. -/
def jsDateAddOneMonth (y mIdx : Int) : Int × Int :=
  let yAdj := if 0 ≤ y ∧ y ≤ 99 then y + 1900 else y
  let total := yAdj * 12 + mIdx + 1
  (total / 12, total % 12)

end VtptMeter

namespace RoomPage

open VtptMeter

/-- Model of a JavaScript `Date` parsed from a reading's `date` string:
`valid` is `!isNaN(d.getTime())` and `time` the epoch time in minutes
(meaningful only when `valid` holds). -/
structure DateVal where
  valid : Bool
  time : Int
deriving DecidableEq

/-- Source `Reading` row type of the room page (`pages/room/[room].tsx`);
the `date` string is represented by its parse result. -/
structure Reading where
  room : String
  date : DateVal
  dien : Option Int := none
  nuoc : Option Int := none
  id : Int
  note : Option String := none
  cycle : Option String := none
deriving DecidableEq

/-- Source `monthKeyFromDateString(dateStr)` of the room page: builds the key
from `getFullYear()`/`getMonth()`, i.e. from LOCAL calendar components, so the
result depends on the caller's system UTC offset `sysOff` (in minutes). -/
def monthKeyFromDateString (sysOff : Int) (d : DateVal) : String :=
  if d.valid = false then "unknown"
  else
    let c := localCivil sysOff d.time
    monthKeyRender c.1 c.2.1.toNat

/-- Source `isRowInCycle(row, cycleMonth)` of the room page. -/
def isRowInCycle (sysOff : Int) (row : Option Reading) (cycleMonth : Option String) : Bool :=
  match row, cycleMonth with
  | none, _ => false
  | _, none => false
  | some r, some cm =>
    if cm = "" then false
    else
      let c := jsTrim (r.cycle.getD "")
      if c ≠ "" then c == cm
      else monthKeyFromDateString sysOff r.date == cm

/-- Effective cycle of a reading, in the words of the spec: the non-empty
trimmed `cycle` stamp when present, otherwise the month key derived from the
reading's date (which, in this code path, is local-timezone dependent). -/
def effectiveCycle (sysOff : Int) (r : Reading) : String :=
  let c := jsTrim (r.cycle.getD "")
  if c ≠ "" then c else monthKeyFromDateString sysOff r.date

/-- Source `sortNewestFirst(list)`: stable sort with comparator
`(a, b) => new Date(b.date).getTime() - new Date(a.date).getTime()`, i.e.
newest first.  JavaScript's sort is stable; it is modelled by a stable
insertion sort under the same ordering. -/
def sortNewestFirst (l : List Reading) : List Reading :=
  l.insertionSort (fun a b => b.date.time ≤ a.date.time)

/-- Source `latestCycle` memo of the room page: `null` when `cycleMonth` is
falsy, otherwise the first row of the newest-first history that
`isRowInCycle` accepts. -/
def latestCycle (sysOff : Int) (history : List Reading) (cycleMonth : Option String) :
    Option Reading :=
  match cycleMonth with
  | none => none
  | some cm =>
    if cm = "" then none
    else (sortNewestFirst history).find? (fun r => isRowInCycle sysOff (some r) (some cm))

/-- Target of a delete request (`{ id, date }`), with the date kept as the
raw string it is compared by. -/
structure DeleteTarget where
  id : Int
  date : String
deriving DecidableEq

/-- Source `DeleteOutboxItem` (the constant `kind: "delete"` tag is elided;
`readDeleteOutbox` filters the persisted list down to exactly such items). -/
structure DeleteOutboxItem where
  room : String
  target : DeleteTarget
  createdAt : Int
  tries : Nat
deriving DecidableEq

/-- The `(room, target.id, target.date)` de-duplication test of
`enqueueDelete`. -/
def matchesDelete (room : String) (target : DeleteTarget) (x : DeleteOutboxItem) : Bool :=
  x.room == room && x.target.id == target.id && x.target.date == target.date

/-- Source `enqueueDelete(room, target)`: no-op without a room, de-duplicated
on `(room, target.id, target.date)`, otherwise prepended and capped at 80
(`list.slice(0, 80)` drops the oldest tail). -/
def enqueueDelete (room : String) (target : DeleteTarget) (now : Int)
    (list : List DeleteOutboxItem) : List DeleteOutboxItem :=
  if room = "" then list
  else if list.any (matchesDelete room target) then list
  else (⟨room, target, now, 0⟩ :: list).take 80

/-- Source `WriteAction`. -/
inductive WriteAction where
  | save
  | update
deriving DecidableEq

/-- Source `WriteOutboxItem["payload"]`. -/
structure WritePayload where
  action : WriteAction
  room : String
  dien : Option Int := none
  nuoc : Option Int := none
  note : String := ""
  target : Option DeleteTarget := none
deriving DecidableEq

/-- Source `WriteOutboxItem` (constant `kind: "write"` tag elided). -/
structure WriteOutboxItem where
  id : String
  createdAt : Int
  tries : Nat
  payload : WritePayload
deriving DecidableEq

/-- Source `enqueueWrite(item)`: no-op without a room, otherwise prepended
with a fresh id and capped at 120 (`list.slice(0, 120)`). -/
def enqueueWrite (payload : WritePayload) (newId : String) (now : Int)
    (list : List WriteOutboxItem) : List WriteOutboxItem :=
  if payload.room = "" then list
  else (⟨newId, now, 0, payload⟩ :: list).take 120

/-- Outcome of one flush network attempt, following the failure taxonomy of
the API response envelope (`{ ok: boolean }`): the `fetch` call threw, the
body was not JSON (`res.json()` threw, leaving `j = null`), or a parsed
response with its boolean `ok` field. -/
inductive FlushOutcome where
  | networkError
  | malformedJson
  | reply (ok : Bool)
deriving DecidableEq

/-- The `j?.ok` test of the flush loop. -/
def outcomeOk : FlushOutcome → Bool
  | .reply true => true
  | _ => false

/-- The `{ ...x, tries: (x.tries || 0) + 1 }` update. -/
def bumpTries (x : WriteOutboxItem) : WriteOutboxItem :=
  ⟨x.id, x.createdAt, x.tries + 1, x.payload⟩

/-- One iteration of the `flushWriteOutbox` loop body for `item`: re-read the
persisted queue and either remove the acknowledged item by id or bump the
retry counter of the matching entry. -/
def flushStep (outcome : WriteOutboxItem → FlushOutcome)
    (queue : List WriteOutboxItem) (item : WriteOutboxItem) : List WriteOutboxItem :=
  if outcomeOk (outcome item) then queue.filter (fun x => !(x.id == item.id))
  else queue.map (fun x => if x.id == item.id then bumpTries x else x)

/-- Source `flushWriteOutbox`: snapshot the queue, process oldest first
(`list.slice().reverse()`), one network attempt per item with outcome
`outcome item`.  The session-PIN and empty-queue early returns and the
`flushingWritesRef` reentrancy guard sit upstream of this per-item loop. -/
def flushWriteOutbox (outcome : WriteOutboxItem → FlushOutcome)
    (q : List WriteOutboxItem) : List WriteOutboxItem :=
  q.reverse.foldl (flushStep outcome) q

end RoomPage

namespace SyncModel

open RoomPage

/-- The pieces of room-page state touched by overlapping background syncs:
the `syncSeqRef` counter, the `syncing` flag, the in-memory `history` state
and the room's slice of the house-history localStorage cache. -/
structure SyncState where
  seq : Nat
  syncing : Bool
  history : List Reading
  cacheHistory : List Reading
deriving DecidableEq

/-- Entry of source `runBackgroundSync`:
`const mySeq = ++syncSeqRef.current; setSyncingSafe(true)`. -/
def startSync (s : SyncState) : SyncState × Nat :=
  (⟨s.seq + 1, true, s.history, s.cacheHistory⟩, s.seq + 1)

/-- Completion of `refreshHistoryFromNetwork` within a sync run: the fetched
rows are sorted, truncated to 24, and stored to both React state and the
house-history cache unconditionally — no sequence check happens here. -/
def applyHistoryResult (data : List Reading) (s : SyncState) : SyncState :=
  let sorted := (sortNewestFirst data).take 24
  ⟨s.seq, s.syncing, sorted, sorted⟩

/-- Tail of source `runBackgroundSync`: `if (mySeq !== syncSeqRef.current)
return;` and only then `setSyncingSafe(false)` (plus a toast). -/
def finishSync (mySeq : Nat) (s : SyncState) : SyncState :=
  if mySeq = s.seq then ⟨s.seq, false, s.history, s.cacheHistory⟩ else s

/-- The overlapped schedule of the stale-reconciliation claim: run #1 starts,
run #2 starts, run #2's fetch resolves and is applied, run #2 finishes, then
run #1's fetch resolves late and is applied, and finally run #1's guarded
tail runs. -/
def overlappedRun (d1 d2 : List Reading) (s0 : SyncState) : SyncState :=
  let r1 := startSync s0
  let r2 := startSync r1.1
  let s3 := applyHistoryResult d2 r2.1
  let s4 := finishSync r2.2 s3
  let s5 := applyHistoryResult d1 s4
  finishSync r1.2 s5

end SyncModel

namespace HousePage

open VtptMeter

/-- Source constant `CYCLE_ROLLOVER_DAY = 25` of the house page. -/
def CYCLE_ROLLOVER_DAY : Int := 25

/-- Source `monthKeyFromParts(y, m)`: the template literal `y-pad2(m)`. -/
def monthKeyFromParts (y : Int) (m : Nat) : String := monthKeyRender y m

/-- Source `isMonthKey(s)` of the house page (the `/^\d{4}-\d{2}$/` test). -/
def isMonthKey (s : String) : Bool := VtptMeter.isMonthKey s

/-- Result of `vnYMD`: the reading date's calendar parts in the fixed VN
timezone. -/
structure VParts where
  y : Int
  m : Int
  d : Int
deriving DecidableEq

/-- Source `vnYMD(dateStr)`: `none` when `new Date(dateStr)` is invalid,
otherwise the `Intl.DateTimeFormat` components in `Asia/Ho_Chi_Minh`,
validated to `1 ≤ m ≤ 12` and `1 ≤ d ≤ 31` as in the source.  A reading date
is modelled by its parse result (`none`, or `some t` with `t` the epoch time
in minutes).  The source's local-timezone fallback runs only if `Intl` itself
throws or returns out-of-range parts, which cannot happen on a supported
runtime, so it is not modelled. -/
def vnYMD (date : Option Int) : Option VParts :=
  match date with
  | none => none
  | some t =>
    let c := localCivil vnOffsetMinutes t
    if 1 ≤ c.2.1 ∧ c.2.1 ≤ 12 ∧ 1 ≤ c.2.2 ∧ c.2.2 ≤ 31 then
      some ⟨c.1, c.2.1, c.2.2⟩
    else none

/-- Source `nextMonthKey(key)` of the house page: guarded by `isMonthKey`,
then JavaScript `Date` arithmetic with the `(mm || 1)` default — including
the `Date` constructor's remapping of years 0–99. -/
def nextMonthKey (key : String) : String :=
  if !isMonthKey key then key
  else
    match splitChars '-' key.data with
    | a :: b :: _ =>
      match jsNumber a with
      | none => "NaN-NaN"
      | some yy =>
        let mm1 : Int :=
          match jsNumber b with
          | none => 1
          | some mv => if mv = 0 then 1 else mv
        let r := jsDateAddOneMonth yy (mm1 - 1)
        monthKeyRender r.1 (r.2 + 1).toNat
    | _ => "NaN-NaN"

/-- Source `cycleKeyFromReadingDate(dateStr)` of the house page: business
cycle of a reading — its own VN month key below the rollover day, the next
month's key from the rollover day on; `null` when the date is unparsable or
the built key fails `isMonthKey`. -/
def cycleKeyFromReadingDate (date : Option Int) : Option String :=
  match vnYMD date with
  | none => none
  | some p =>
    let mk := monthKeyFromParts p.y p.m.toNat
    if !isMonthKey mk then none
    else if CYCLE_ROLLOVER_DAY ≤ p.d then some (nextMonthKey mk)
    else some mk

/-- Source `monthKeyVN(date)` of the house page: the month key of an instant
computed via `Intl.DateTimeFormat` pinned to `Asia/Ho_Chi_Minh`.  The
parameter `sysOff` is the caller's system UTC offset in minutes; the `Intl`
path never consults it (only the dead `catch` fallback would). -/
def monthKeyVN (sysOff : Int) (t : Int) : String :=
  let c := localCivil vnOffsetMinutes t
  monthKeyFromParts c.1 c.2.1.toNat

/-- Source `monthKeyFromDateStringVN(dateStr)` of the house page: `"unknown"`
for unparsable dates, otherwise `monthKeyVN` of the parsed instant. -/
def monthKeyFromDateStringVN (sysOff : Int) (date : Option Int) : String :=
  match date with
  | none => "unknown"
  | some t => monthKeyVN sysOff t

end HousePage

namespace ApproveApi

open VtptMeter

/-- Source `isMonthKey(s)` of the approve API revision. -/
def isMonthKey (s : String) : Bool := VtptMeter.isMonthKey s

/-- Source `monthKey(d)` of the approve API revision:
`${d.getFullYear()}-${pad2(d.getMonth() + 1)}`, given here by the server's
current local year and month number. -/
def monthKey (nowY : Int) (nowM : Nat) : String := monthKeyRender nowY nowM

/-- Source `nextMonth(key)` of the approve API revision: split, `Number`,
`new Date(y, m - 1, 1)`, `setMonth(getMonth() + 1)`, re-render — with no
validity guard and no `(mm || 1)` default; a `NaN` component yields an
invalid `Date` and the rendering `"NaN-NaN"`. -/
def nextMonth (key : String) : String :=
  match splitChars '-' key.data with
  | a :: b :: _ =>
    match jsNumber a, jsNumber b with
    | some yy, some mm =>
      let r := jsDateAddOneMonth yy (mm - 1)
      monthKeyRender r.1 (r.2 + 1).toNat
    | _, _ => "NaN-NaN"
  | _ => "NaN-NaN"

/-- The key the approve branch feeds to `nextMonth`: the supplied
`currentCycleKey` when it is a string passing `isMonthKey`, otherwise
`monthKey()` of the current date. -/
def approveCurrent (currentCycleKey : Option String) (nowY : Int) (nowM : Nat) : String :=
  match currentCycleKey with
  | some s => if isMonthKey s then s else monthKey nowY nowM
  | none => monthKey nowY nowM

/-- Month for which the approve branch issues its upstream `cycleSet`
request: `nextMonth(current)`. -/
def approveIssuedMonth (currentCycleKey : Option String) (nowY : Int) (nowM : Nat) : String :=
  nextMonth (approveCurrent currentCycleKey nowY nowM)

end ApproveApi

namespace Spec

open VtptMeter

/-- Modelled from the spec: the calendar successor of month `m` of year `y`,
with December advancing to January of the following year. -/
def nextYM (y : Int) (m : Nat) : Int × Nat :=
  if m = 12 then (y + 1, 1) else (y, m + 1)

end Spec

namespace MeterApi

open VtptMeter

/-- Server-side in-memory cache entry (`{ exp, status, json }`); the cached
JSON payload itself is irrelevant to the claims and elided. -/
structure CacheEntry where
  exp : Int
  status : Nat
deriving DecidableEq

/-- The module-level `memCache` map, keyed by `GET:<url>` strings (keys are
unique, as in a `Map`). -/
abbrev Cache := List (String × CacheEntry)

/-- Source `cacheGet(key)`: a miss returns `null`; an expired hit is deleted
and returns `null`; a live hit is returned. -/
def cacheGet (now : Int) (key : String) (c : Cache) : Option CacheEntry × Cache :=
  match c.find? (fun e => e.1 == key) with
  | none => (none, c)
  | some e =>
    if e.2.exp ≤ now then (none, c.filter (fun x => !(x.1 == key)))
    else (some e.2, c)

/-- Source `cacheSet(key, status, json, ttlMs)`. -/
def cacheSet (key : String) (status : Nat) (now ttl : Int) (c : Cache) : Cache :=
  if c.any (fun e => e.1 == key) then
    c.map (fun e => if e.1 == key then (key, ⟨now + ttl, status⟩) else e)
  else c ++ [(key, ⟨now + ttl, status⟩)]

/-- Source `cacheClearAll()`. -/
def cacheClearAll : Cache := []

/-- Source `ttlForAction(action)`. -/
def ttlForAction (action : String) : Nat :=
  if action == "cycleGet" then 30000
  else if action == "houseCycleLatest" then 10000
  else if action == "latest" || action == "history" || action == "log" ||
      action == "latestCycle" || action == "historyByCycle" ||
      action == "houseLatest" || action == "houseHistory" || action == "cyclesGet" then 8000
  else 0

/-- Result of `requirePinActor` / `requireAdmin`: an error response
`(status, error)` or a resolved actor with its admin flag. -/
inductive AuthResult where
  | authErr (status : Nat) (error : String)
  | authOk (actor : String) (isAdmin : Bool)
deriving DecidableEq

/-- Split a character list at the FIRST occurrence of `c` (models
`item.indexOf(":")` plus the two `slice` calls in `parsePins`). -/
def splitFirstAt (c : Char) : List Char → Option (List Char × List Char)
  | [] => none
  | x :: xs =>
    if x = c then some ([], xs)
    else (splitFirstAt c xs).map (fun p => (x :: p.1, p.2))

/-- Assignment `map[pin] = name`: replace an existing binding or append. -/
def insertPin (m : List (String × String)) (pin name : String) : List (String × String) :=
  if m.any (fun e => e.1 == pin) then
    m.map (fun e => if e.1 == pin then (pin, name) else e)
  else m ++ [(pin, name)]

/-- Source `parsePins(pinsRaw)`: `"1111:Masie,2222:Brother"` to a pin-to-name
map. -/
def parsePins (raw : String) : List (String × String) :=
  let items := ((splitChars ',' raw.data).map trimChars).filter (fun l => !l.isEmpty)
  items.foldl (fun m item =>
    match splitFirstAt ':' item with
    | none => m
    | some (p, n) =>
      let pin := String.mk (trimChars p)
      let name := String.mk (trimChars n)
      if pin = "" || name = "" then m else insertPin m pin name) []

/-- Source `parseAdminPins(raw)` (a `Set` of pins; membership is all that is
ever used of it). -/
def parseAdminPins (raw : Option String) : List String :=
  let s := jsTrim (raw.getD "")
  if s = "" then []
  else (((splitChars ',' s.data).map trimChars).filter (fun l => !l.isEmpty)).map String.mk

/-- Source `getHeaderPin(req)`: the `x-vtpt-pin` header value, trimmed. -/
def getHeaderPin (header : Option String) : String := jsTrim (header.getD "")

/-- JS falsiness of an optional environment string (`undefined` or `""`). -/
def falsyEnv : Option String → Bool
  | none => true
  | some s => s == ""

/-- Source `requirePinActor(req)`, as a function of the `VTPT_PINS` and
`VTPT_ADMIN_PINS` environment values and the PIN header. -/
def requirePinActor (pinsEnv adminEnv header : Option String) : AuthResult :=
  if falsyEnv pinsEnv then
    .authErr 500 "Server not configured: VTPT_PINS is missing. Writes are disabled."
  else
    let pins := parsePins (pinsEnv.getD "")
    if pins.isEmpty then
      .authErr 500 "Server not configured: VTPT_PINS is empty/invalid."
    else
      let pin := getHeaderPin header
      match if pin = "" then none else pins.lookup pin with
      | none => .authErr 401 "Unauthorized (bad PIN)"
      | some actor =>
        .authOk actor (if pin = "" then false else (parseAdminPins adminEnv).contains pin)

/-- Source `requireAdmin(req)`: `requirePinActor`, then 403 for a resolved
non-admin actor. -/
def requireAdmin (pinsEnv adminEnv header : Option String) : AuthResult :=
  match requirePinActor pinsEnv adminEnv header with
  | .authOk _ false => .authErr 403 "Forbidden (admin only)"
  | r => r

/-- The `target` field of a POST body. -/
structure PostTarget where
  id : Option Int := none
  date : Option String := none
deriving DecidableEq

/-- POST body of the meter API.  String-valued fields are `none` when absent
or not a string; `dien`/`nuoc` are `none` when absent, `null`, or not
numeric (`hasFiniteNumber` false), mirroring the validation results. -/
structure PostBody where
  action : Option String := none
  room : Option String := none
  month : Option String := none
  note : Option String := none
  cycle : Option String := none
  dien : Option Int := none
  nuoc : Option Int := none
  target : Option PostTarget := none
deriving DecidableEq

/-- JS `String(o || dflt)` for an optional string. -/
def strOr (o : Option String) (dflt : String) : String :=
  match o with
  | none => dflt
  | some s => if s = "" then dflt else s

/-- Request body forwarded to the remote script by the POST handler (only the
fields the claims inspect). -/
structure Forwarded where
  action : String
  month : Option String := none
  room : Option String := none
deriving DecidableEq

/-- Branch outcome of the POST handler before its cache effect: HTTP status,
response `ok` flag, and the request (if any) forwarded to the remote script.
The upstream outcome `up` is `.error ()` when `fetchJson` threw (network
error, timeout, unparsable body — caught by the outer handler as a 500), or
`.ok (status, okv)` with `okv` the truthiness of `json && json.ok`. -/
structure PostCore where
  status : Nat
  ok : Bool
  forwarded : Option Forwarded
deriving DecidableEq

/-- Source POST branch of `pages/api/meter.ts`, up to the cache effect. -/
def meterPostCore (pinsEnv adminEnv header : Option String) (body : PostBody)
    (up : Except Unit (Nat × Bool)) : PostCore :=
  let actionRaw := jsTrim (strOr body.action "save")
  if actionRaw = "cycleSet" then
    match requireAdmin pinsEnv adminEnv header with
    | .authErr st _ => ⟨st, false, none⟩
    | .authOk _ _ =>
      let month := jsTrim (body.month.getD "")
      if !isMonthKey month then ⟨400, false, none⟩
      else
        match up with
        | .error _ => ⟨500, false, some ⟨"cycleSet", some month, none⟩⟩
        | .ok (st, okv) => ⟨st, okv, some ⟨"cycleSet", some month, none⟩⟩
  else
    match requirePinActor pinsEnv adminEnv header with
    | .authErr st _ => ⟨st, false, none⟩
    | .authOk _ _ =>
      let action := if actionRaw = "update" || actionRaw = "delete" then actionRaw else "save"
      let roomStr := jsTrim (body.room.getD "")
      if roomStr = "" then ⟨400, false, none⟩
      else
        let targetId := match body.target with | some t => t.id | none => none
        let targetDate := match body.target with | some t => jsTrim (t.date.getD "") | none => ""
        let isUpDel := action == "update" || action == "delete"
        if isUpDel && body.target.isNone then ⟨400, false, none⟩
        else if isUpDel && (targetDate == "") then ⟨400, false, none⟩
        else if isUpDel && targetId.isNone then ⟨400, false, none⟩
        else if !(action == "delete") && body.dien.isNone && body.nuoc.isNone then
          ⟨400, false, none⟩
        else
          let cycle := jsTrim (body.cycle.getD "")
          if !(cycle == "") && !isMonthKey cycle then ⟨400, false, none⟩
          else
            match up with
            | .error _ => ⟨500, false, some ⟨action, none, some roomStr⟩⟩
            | .ok (st, okv) => ⟨st, okv, some ⟨action, none, some roomStr⟩⟩

/-- Cache-clearing condition of both POST forwarding sites:
`if (json && json.ok) cacheClearAll()` — a request was actually forwarded and
the parsed upstream reply has a truthy `ok`. -/
def postClears (pinsEnv adminEnv header : Option String) (body : PostBody)
    (up : Except Unit (Nat × Bool)) : Bool :=
  (meterPostCore pinsEnv adminEnv header body up).forwarded.isSome &&
    (match up with | .ok (_, true) => true | _ => false)

/-- Full result of the POST branch, including its effect on the cache. -/
structure PostResult where
  status : Nat
  ok : Bool
  forwarded : Option Forwarded
  cache : Cache

/-- Source POST branch of `pages/api/meter.ts` with its cache effect. -/
def meterPost (pinsEnv adminEnv header : Option String) (body : PostBody)
    (up : Except Unit (Nat × Bool)) (c : Cache) : PostResult :=
  let core := meterPostCore pinsEnv adminEnv header body up
  ⟨core.status, core.ok, core.forwarded,
    if postClears pinsEnv adminEnv header body up then cacheClearAll else c⟩

/-- Cache interactions of one GET request that reaches the fetch tail of the
handler: probe the cache when the action is cacheable, serve a live hit,
otherwise fetch upstream and fill the cache; an upstream throw is caught by
the outer handler without touching the cache further.  `url` stands for the
built script URL of the request. -/
def meterGetStep (url : String) (ttl : Nat) (now : Int) (up : Except Unit Nat)
    (c : Cache) : Cache :=
  if ttl > 0 then
    match cacheGet now ("GET:" ++ url) c with
    | (some _, c1) => c1
    | (none, c1) =>
      match up with
      | .error _ => c1
      | .ok st => cacheSet ("GET:" ++ url) st now (ttl : Int) c1
  else c

/-- One request hitting the meter API: a GET (with its action, built URL,
server clock value and upstream outcome) or a POST (with environment, PIN
header, body and upstream outcome). -/
inductive MeterEvent where
  | getReq (action url : String) (now : Int) (up : Except Unit Nat)
  | postReq (pinsEnv adminEnv header : Option String) (body : PostBody)
      (up : Except Unit (Nat × Bool))

/-- Effect of one request on the server cache. -/
def stepEvent (c : Cache) (e : MeterEvent) : Cache :=
  match e with
  | .getReq action url now up => meterGetStep url (ttlForAction action) now up c
  | .postReq pe ae h b up => (meterPost pe ae h b up c).cache

/-- Cache state after a sequence of requests. -/
def runEvents (c : Cache) (es : List MeterEvent) : Cache := es.foldl stepEvent c

/-- A POST event that was forwarded upstream and acknowledged `{ ok: true }`. -/
def postAck (e : MeterEvent) : Bool :=
  match e with
  | .postReq pe ae h b up => postClears pe ae h b up
  | _ => false

end MeterApi

namespace VtptMeter

theorem digitChar_isDigit {d : Nat} (h : d < 10) : (Nat.digitChar d).isDigit = true := by
  interval_cases d <;> decide

theorem digitChar_ne_dash {d : Nat} (h : d < 10) : ¬ Nat.digitChar d = '-' := by
  interval_cases d <;> decide

theorem digitChar_not_ws {d : Nat} (h : d < 10) : isWsChar (Nat.digitChar d) = false := by
  interval_cases d <;> decide

theorem digitVal_digitChar {d : Nat} (h : d < 10) : digitVal (Nat.digitChar d) = d := by
  interval_cases d <;> decide

theorem natDigitsAux_small {f n : Nat} (h : n < 10) :
    natDigitsAux (f + 1) n = [Nat.digitChar n] := by
  simp [natDigitsAux, h]

theorem natDigitsAux_step {f n : Nat} (h : 10 ≤ n) :
    natDigitsAux (f + 1) n = Nat.digitChar (n % 10) :: natDigitsAux f (n / 10) := by
  simp [natDigitsAux, Nat.not_lt.mpr h]

theorem natDigitsAux_two (f n : Nat) (hf : 2 ≤ f) (h1 : 10 ≤ n) (h2 : n ≤ 99) :
    natDigitsAux f n = [Nat.digitChar (n % 10), Nat.digitChar (n / 10)] := by
  obtain ⟨k, rfl⟩ : ∃ k, f = k + 2 := ⟨f - 2, by omega⟩
  rw [show k + 2 = k + 1 + 1 by omega]
  rw [natDigitsAux_step h1]
  rw [natDigitsAux_small (by omega : n / 10 < 10)]

theorem natDigitsAux_four (f n : Nat) (hf : 4 ≤ f) (h1 : 1000 ≤ n) (h2 : n ≤ 9999) :
    natDigitsAux f n =
      [Nat.digitChar (n % 10), Nat.digitChar (n / 10 % 10),
       Nat.digitChar (n / 100 % 10), Nat.digitChar (n / 1000)] := by
  obtain ⟨k, rfl⟩ : ∃ k, f = k + 4 := ⟨f - 4, by omega⟩
  rw [show k + 4 = k + 3 + 1 by omega]
  rw [natDigitsAux_step (by omega : 10 ≤ n)]
  rw [show k + 3 = k + 2 + 1 by omega]
  rw [natDigitsAux_step (by omega : 10 ≤ n / 10)]
  rw [show k + 2 = k + 1 + 1 by omega]
  rw [natDigitsAux_step (by omega : 10 ≤ n / 10 / 10)]
  rw [natDigitsAux_small (by omega : n / 10 / 10 / 10 < 10)]
  have e2 : n / 10 / 10 / 10 = n / 1000 := by omega
  have e1 : n / 10 / 10 = n / 100 := by omega
  rw [e2, e1]

theorem natChars_small {n : Nat} (h : n < 10) : natChars n = [Nat.digitChar n] := by
  unfold natChars
  rw [natDigitsAux_small h]
  rfl

theorem natChars_two {n : Nat} (h1 : 10 ≤ n) (h2 : n ≤ 99) :
    natChars n = [Nat.digitChar (n / 10), Nat.digitChar (n % 10)] := by
  unfold natChars
  rw [natDigitsAux_two (n + 1) n (by omega) h1 h2]
  rfl

theorem natChars_four {n : Nat} (h1 : 1000 ≤ n) (h2 : n ≤ 9999) :
    natChars n =
      [Nat.digitChar (n / 1000), Nat.digitChar (n / 100 % 10),
       Nat.digitChar (n / 10 % 10), Nat.digitChar (n % 10)] := by
  unfold natChars
  rw [natDigitsAux_four (n + 1) n (by omega) h1 h2]
  rfl

theorem pad2Chars_small {n : Nat} (h1 : 1 ≤ n) (h2 : n ≤ 9) :
    pad2Chars n = ['0', Nat.digitChar n] := by
  unfold pad2Chars
  rw [natChars_small (by omega)]
  rfl

theorem pad2Chars_two {n : Nat} (h1 : 10 ≤ n) (h2 : n ≤ 99) :
    pad2Chars n = [Nat.digitChar (n / 10), Nat.digitChar (n % 10)] := by
  unfold pad2Chars
  rw [natChars_two h1 h2]
  rfl

theorem dropWhile_eq_self_of_head {p : Char → Bool} {l : List Char}
    (h : ∀ c ∈ l, p c = false) : l.dropWhile p = l := by
  cases l with
  | nil => rfl
  | cons x xs =>
    rw [List.dropWhile_cons]
    simp [h x (by simp)]

theorem trimChars_of_no_ws {l : List Char} (h : ∀ c ∈ l, isWsChar c = false) :
    trimChars l = l := by
  unfold trimChars
  rw [dropWhile_eq_self_of_head h]
  rw [dropWhile_eq_self_of_head (by intro c hc; exact h c (by simpa using hc))]
  simp

end VtptMeter

namespace VtptMeter

theorem splitChars_sevenKey {c1 c2 c3 c4 c5 c6 : Char}
    (h1 : ¬ c1 = '-') (h2 : ¬ c2 = '-') (h3 : ¬ c3 = '-')
    (h4 : ¬ c4 = '-') (h5 : ¬ c5 = '-') (h6 : ¬ c6 = '-') :
    splitChars '-' [c1, c2, c3, c4, '-', c5, c6] = [[c1, c2, c3, c4], [c5, c6]] := by
  simp [splitChars, h1, h2, h3, h4, h5, h6]

theorem jsNumber_fourDigits {a b c d : Nat}
    (ha : a < 10) (hb : b < 10) (hc : c < 10) (hd : d < 10) :
    jsNumber [Nat.digitChar a, Nat.digitChar b, Nat.digitChar c, Nat.digitChar d]
      = some ((a * 1000 + b * 100 + c * 10 + d : Nat) : Int) := by
  unfold jsNumber
  rw [trimChars_of_no_ws]
  · simp [parseDigitsAux, digitChar_isDigit ha, digitChar_isDigit hb,
      digitChar_isDigit hc, digitChar_isDigit hd, digitVal_digitChar ha,
      digitVal_digitChar hb, digitVal_digitChar hc, digitVal_digitChar hd]
    omega
  · intro x hx
    simp at hx
    rcases hx with h | h | h | h <;> subst h
    · exact digitChar_not_ws ha
    · exact digitChar_not_ws hb
    · exact digitChar_not_ws hc
    · exact digitChar_not_ws hd

theorem jsNumber_twoDigits {a b : Nat} (ha : a < 10) (hb : b < 10) :
    jsNumber [Nat.digitChar a, Nat.digitChar b] = some ((a * 10 + b : Nat) : Int) := by
  unfold jsNumber
  rw [trimChars_of_no_ws]
  · simp [parseDigitsAux, digitChar_isDigit ha, digitChar_isDigit hb,
      digitVal_digitChar ha, digitVal_digitChar hb]
  · intro x hx
    simp at hx
    rcases hx with h | h <;> subst h
    · exact digitChar_not_ws ha
    · exact digitChar_not_ws hb

theorem pad2Chars_digits {m : Nat} (hm1 : 1 ≤ m) (hm2 : m ≤ 12) :
    ∃ a b : Nat, a < 10 ∧ b < 10 ∧
      pad2Chars m = [Nat.digitChar a, Nat.digitChar b] ∧ a * 10 + b = m := by
  by_cases h : m ≤ 9
  · refine ⟨0, m, by omega, by omega, ?_, by omega⟩
    rw [pad2Chars_small hm1 h]
    rfl
  · exact ⟨m / 10, m % 10, by omega, by omega, pad2Chars_two (by omega) (by omega), by omega⟩

theorem monthKeyRender_roundTrip (y : Int) (m : Nat)
    (hy1 : 1000 ≤ y) (hy2 : y ≤ 9999) (hm1 : 1 ≤ m) (hm2 : m ≤ 12) :
    isMonthKey (monthKeyRender y m) = true ∧
    splitChars '-' (monthKeyRender y m).data = [natChars y.toNat, pad2Chars m] ∧
    jsNumber (natChars y.toNat) = some y ∧
    jsNumber (pad2Chars m) = some (m : Int) := by
  have hyn1 : 1000 ≤ y.toNat := by omega
  have hyn2 : y.toNat ≤ 9999 := by omega
  have hichars : intChars y = natChars y.toNat := by
    unfold intChars
    rw [if_neg (by omega)]
  have hy4 := natChars_four hyn1 hyn2
  obtain ⟨a, b, hA, hB, hpad, hval⟩ := pad2Chars_digits hm1 hm2
  have hd1 : y.toNat / 1000 < 10 := by omega
  have hd2 : y.toNat / 100 % 10 < 10 := by omega
  have hd3 : y.toNat / 10 % 10 < 10 := by omega
  have hd4 : y.toNat % 10 < 10 := by omega
  have hdata : (monthKeyRender y m).data
      = [Nat.digitChar (y.toNat / 1000), Nat.digitChar (y.toNat / 100 % 10),
         Nat.digitChar (y.toNat / 10 % 10), Nat.digitChar (y.toNat % 10),
         '-', Nat.digitChar a, Nat.digitChar b] := by
    show intChars y ++ '-' :: pad2Chars m = _
    rw [hichars, hy4, hpad]
    rfl
  refine ⟨?_, ?_, ?_, ?_⟩
  · unfold isMonthKey
    rw [hdata, trimChars_of_no_ws]
    · simp [isMonthKeyChars, digitChar_isDigit hd1, digitChar_isDigit hd2,
        digitChar_isDigit hd3, digitChar_isDigit hd4,
        digitChar_isDigit hA, digitChar_isDigit hB]
    · intro x hx
      simp at hx
      rcases hx with h | h | h | h | h | h | h <;> subst h
      · exact digitChar_not_ws hd1
      · exact digitChar_not_ws hd2
      · exact digitChar_not_ws hd3
      · exact digitChar_not_ws hd4
      · decide
      · exact digitChar_not_ws hA
      · exact digitChar_not_ws hB
  · rw [hdata, splitChars_sevenKey (digitChar_ne_dash hd1) (digitChar_ne_dash hd2)
      (digitChar_ne_dash hd3) (digitChar_ne_dash hd4)
      (digitChar_ne_dash hA) (digitChar_ne_dash hB), hy4, hpad]
  · rw [hy4, jsNumber_fourDigits hd1 hd2 hd3 hd4]
    congr 1
    omega
  · rw [hpad, jsNumber_twoDigits hA hB]
    congr 1
    omega

end VtptMeter

namespace VtptMeter

theorem jsDateAddOneMonth_eq (y m : Int) (hy : 100 ≤ y) (hm1 : 1 ≤ m) (hm2 : m ≤ 12) :
    jsDateAddOneMonth y (m - 1) = (if m = 12 then y + 1 else y, if m = 12 then 0 else m) := by
  simp only [jsDateAddOneMonth, if_neg (by omega : ¬(0 ≤ y ∧ y ≤ 99))]
  by_cases h : m = 12
  · rw [if_pos h, if_pos h, h]
    have e : y * 12 + ((12 : Int) - 1) + 1 = (y + 1) * 12 := by ring
    rw [e]
    simp only [Prod.mk.injEq]
    constructor
    · exact Int.mul_ediv_cancel _ (by norm_num)
    · exact Int.mul_emod_left _ _
  · rw [if_neg h, if_neg h]
    have e : y * 12 + (m - 1) + 1 = m + 12 * y := by ring
    rw [e]
    simp only [Prod.mk.injEq]
    constructor
    · rw [Int.add_mul_ediv_left _ _ (by norm_num : (12 : Int) ≠ 0)]
      rw [@Int.ediv_eq_zero_of_lt m 12 (by omega) (by omega)]
      omega
    · rw [Int.add_mul_emod_self_left]
      exact @Int.emod_eq_of_lt m 12 (by omega) (by omega)

end VtptMeter

namespace HousePage

open VtptMeter

theorem nextMonthKey_render (y : Int) (m : Nat)
    (hy1 : 1000 ≤ y) (hy2 : y ≤ 9999) (hm1 : 1 ≤ m) (hm2 : m ≤ 12) :
    nextMonthKey (monthKeyRender y m) =
      monthKeyRender (Spec.nextYM y m).1 (Spec.nextYM y m).2 := by
  obtain ⟨hkey, hsplit, hjy, hjm⟩ := monthKeyRender_roundTrip y m hy1 hy2 hm1 hm2
  unfold nextMonthKey
  rw [show isMonthKey (monthKeyRender y m) = true from hkey]
  simp only [Bool.not_true, Bool.false_eq_true, if_false, hsplit, hjy, hjm]
  rw [if_neg (by omega : ¬((m : Int) = 0))]
  rw [jsDateAddOneMonth_eq y (m : Int) (by omega) (by omega) (by omega)]
  by_cases hm : m = 12
  · subst hm
    norm_num [Spec.nextYM]
  · rw [if_neg (by omega : ¬((m : Int) = 12)), if_neg (by omega : ¬((m : Int) = 12))]
    have ht : ((m : Int) + 1).toNat = m + 1 := by omega
    simp [Spec.nextYM, if_neg hm, ht]

end HousePage

namespace HousePage

open VtptMeter

/-- C4 counterexample: the reading taken 0500-06-10 12:00 VN time is a
parsable timestamp (its VN components exist, and its day 10 is below the
rollover day), yet the business-cycle computation yields `null` rather than
the timestamp's own month key, because the rendered key `"500-06"` fails the
four-digit `isMonthKey` test. -/
theorem cycleKeyFromReadingDate_cex :
    vnYMD (some (utcInstant 500 6 10 5 0)) = some ⟨500, 6, 10⟩ ∧
    cycleKeyFromReadingDate (some (utcInstant 500 6 10 5 0)) = none := by
  exact ⟨by decide, by decide⟩

/-- C4 (amended): for every parsable reading timestamp whose VN-timezone year
renders as four digits (1000–9999), the business-cycle key equals the
timestamp's own month key when the VN day-of-month is strictly below the
rollover day 25, and the next calendar month's key (December rolling to
January of the following year) when the day is ≥ 25. -/
theorem cycleKeyFromReadingDate_rollover_amended (date : Option Int) (p : VParts)
    (hp : vnYMD date = some p) (hy1 : 1000 ≤ p.y) (hy2 : p.y ≤ 9999) :
    cycleKeyFromReadingDate date =
      some (if CYCLE_ROLLOVER_DAY ≤ p.d then
              monthKeyFromParts (Spec.nextYM p.y p.m.toNat).1 (Spec.nextYM p.y p.m.toNat).2
            else monthKeyFromParts p.y p.m.toNat) := by
  have hm : 1 ≤ p.m ∧ p.m ≤ 12 := by
    cases date with
    | none => simp [vnYMD] at hp
    | some t =>
      by_cases hcond : 1 ≤ (localCivil vnOffsetMinutes t).2.1 ∧
          (localCivil vnOffsetMinutes t).2.1 ≤ 12 ∧
          1 ≤ (localCivil vnOffsetMinutes t).2.2 ∧ (localCivil vnOffsetMinutes t).2.2 ≤ 31
      · have hv : vnYMD (some t) = some ⟨(localCivil vnOffsetMinutes t).1,
            (localCivil vnOffsetMinutes t).2.1, (localCivil vnOffsetMinutes t).2.2⟩ := by
          simp [vnYMD, hcond]
        rw [hv] at hp
        obtain rfl := Option.some.inj hp
        exact ⟨hcond.1, hcond.2.1⟩
      · have hv : vnYMD (some t) = none := by simp [vnYMD, hcond]
        rw [hv] at hp
        exact absurd hp (by simp)
  simp only [cycleKeyFromReadingDate, hp]
  have hkey := (monthKeyRender_roundTrip p.y p.m.toNat hy1 hy2 (by omega) (by omega)).1
  simp only [monthKeyFromParts]
  rw [show isMonthKey (monthKeyRender p.y p.m.toNat) = true from hkey]
  simp only [Bool.not_true, Bool.false_eq_true, if_false]
  by_cases hd : CYCLE_ROLLOVER_DAY ≤ p.d
  · rw [if_pos hd, if_pos hd]
    rw [nextMonthKey_render p.y p.m.toNat hy1 hy2 (by omega) (by omega)]
  · rw [if_neg hd, if_neg hd]

/-- Witness for the amended C4 theorem at a concrete rollover-day input. -/
theorem cycleKeyFromReadingDate_rollover_amended_witness :
    vnYMD (some (utcInstant 2026 3 25 5 0)) = some ⟨2026, 3, 25⟩ ∧
    cycleKeyFromReadingDate (some (utcInstant 2026 3 25 5 0)) =
      some (monthKeyFromParts 2026 4) := by
  refine ⟨by decide, ?_⟩
  have h := cycleKeyFromReadingDate_rollover_amended (some (utcInstant 2026 3 25 5 0))
    ⟨2026, 3, 25⟩ (by decide) (by decide) (by decide)
  simpa [CYCLE_ROLLOVER_DAY, Spec.nextYM] using h

/-- C6 counterexample: the room-page fallback `monthKeyFromDateString`
evaluates a reading timestamp (2026-02-28T17:30Z) to different month keys
under system offset 0 (UTC) and under system offset +420 (the VN offset), so
that derivation depends on the caller's local timezone. -/
theorem monthKeyFromDateString_tz_cex :
    RoomPage.monthKeyFromDateString 0 ⟨true, utcInstant 2026 2 28 17 30⟩ = "2026-02" ∧
    RoomPage.monthKeyFromDateString 420 ⟨true, utcInstant 2026 2 28 17 30⟩ = "2026-03" ∧
    RoomPage.monthKeyFromDateString 0 ⟨true, utcInstant 2026 2 28 17 30⟩ ≠
      RoomPage.monthKeyFromDateString 420 ⟨true, utcInstant 2026 2 28 17 30⟩ := by
  exact ⟨by decide, by decide, by decide⟩

/-- C6 (amended): the house-page derivations `monthKeyVN` and
`monthKeyFromDateStringVN` compute the key in the fixed `Asia/Ho_Chi_Minh`
timezone and are independent of the caller's system UTC offset; the room-page
fallback `monthKeyFromDateString` is the one derivation that is not (see the
counterexample). -/
theorem monthKey_fixed_tz_amended (o1 o2 t : Int) (d : Option Int) :
    monthKeyVN o1 t = monthKeyVN o2 t ∧
    monthKeyFromDateStringVN o1 d = monthKeyFromDateStringVN o2 d := by
  refine ⟨rfl, ?_⟩
  cases d <;> rfl

end HousePage

namespace ApproveApi

open VtptMeter

theorem nextMonth_render (y : Int) (m : Nat)
    (hy1 : 1000 ≤ y) (hy2 : y ≤ 9999) (hm1 : 1 ≤ m) (hm2 : m ≤ 12) :
    nextMonth (monthKeyRender y m) =
      monthKeyRender (Spec.nextYM y m).1 (Spec.nextYM y m).2 := by
  obtain ⟨hkey, hsplit, hjy, hjm⟩ := monthKeyRender_roundTrip y m hy1 hy2 hm1 hm2
  unfold nextMonth
  simp only [hsplit, hjy, hjm]
  rw [jsDateAddOneMonth_eq y (m : Int) (by omega) (by omega) (by omega)]
  by_cases hm : m = 12
  · subst hm
    norm_num [Spec.nextYM]
  · rw [if_neg (by omega : ¬((m : Int) = 12)), if_neg (by omega : ¬((m : Int) = 12))]
    have ht : ((m : Int) + 1).toNat = m + 1 := by omega
    simp [Spec.nextYM, if_neg hm, ht]

/-- C7 counterexample: `"0050-12"` passes the handler's own `isMonthKey`
validity test, yet approve issues `cycleSet` for `"1951-01"` — not the next
calendar month of year 50, `"0051-01"` — because `new Date(50, 11, 1)` remaps
the two-digit year 50 to 1950. -/
theorem approve_cex :
    isMonthKey "0050-12" = true ∧
    approveIssuedMonth (some "0050-12") 2026 2 = "1951-01" ∧
    ("1951-01" : String) ≠ "0051-01" := by
  exact ⟨by decide, by decide, by decide⟩

/-- C7 (amended): for every supplied current cycle key that renders a real
month (01–12) of a four-digit year 1000–9999, approve issues `cycleSet` for
the next calendar month relative to that key (December rolling to January of
the following year); when the supplied key is missing or fails `isMonthKey`,
the current calendar month key is used as the base instead. -/
theorem approve_advances_cycle_amended (y : Int) (m : Nat) (nowY : Int) (nowM : Nat)
    (hy1 : 1000 ≤ y) (hy2 : y ≤ 9999) (hm1 : 1 ≤ m) (hm2 : m ≤ 12) :
    (approveIssuedMonth (some (monthKey y m)) nowY nowM
        = monthKey (Spec.nextYM y m).1 (Spec.nextYM y m).2) ∧
    (∀ s : String, isMonthKey s = false →
        approveIssuedMonth (some s) nowY nowM = nextMonth (monthKey nowY nowM)) ∧
    (approveIssuedMonth none nowY nowM = nextMonth (monthKey nowY nowM)) := by
  refine ⟨?_, ?_, rfl⟩
  · have hkey := (monthKeyRender_roundTrip y m hy1 hy2 hm1 hm2).1
    unfold approveIssuedMonth approveCurrent
    simp only [monthKey, show isMonthKey (monthKeyRender y m) = true from hkey, if_true]
    exact nextMonth_render y m hy1 hy2 hm1 hm2
  · intro s hs
    simp [approveIssuedMonth, approveCurrent, hs]

/-- Witness for the amended C7 theorem at the concrete key 2026-03. -/
theorem approve_advances_cycle_amended_witness :
    approveIssuedMonth (some (monthKey 2026 3)) 2026 3
      = monthKey (Spec.nextYM 2026 3).1 (Spec.nextYM 2026 3).2 :=
  (approve_advances_cycle_amended 2026 3 2026 3 (by decide) (by decide)
    (by decide) (by decide)).1

end ApproveApi

namespace RoomPage

open VtptMeter

theorem isRowInCycle_eq_effectiveCycle (sysOff : Int) (r : Reading) (cm : String)
    (hcm : cm ≠ "") :
    isRowInCycle sysOff (some r) (some cm) = (effectiveCycle sysOff r == cm) := by
  simp only [isRowInCycle, effectiveCycle]
  rw [if_neg hcm]
  by_cases h : jsTrim (r.cycle.getD "") ≠ "" <;> simp [h]

/-- C1 counterexample: with the invalid (non-`YYYY-MM`) cycle key `"bad"` and
a history whose row carries the cycle stamp `"bad"`, the resolver returns
that row instead of the `null` the claim requires for invalid keys — the code
never validates the key. -/
theorem latestCycle_invalid_key_cex :
    VtptMeter.isMonthKey "bad" = false ∧
    latestCycle 0 [{ room := "A1-01", date := ⟨true, 0⟩, id := 1, cycle := some "bad" }]
        (some "bad")
      = some { room := "A1-01", date := ⟨true, 0⟩, id := 1, cycle := some "bad" } := by
  exact ⟨by decide, by decide⟩

/-- C1 (amended): the resolved current reading is the newest reading — after
sorting newest-first by date — whose effective cycle equals the cycle key; if
none matches it is null, and it is null whenever the cycle key is missing or
empty.  (A non-empty key is used as-is, whether or not it is a valid
`YYYY-MM` string — see the counterexample.)  The hypothesis that the history
dates are parsable keeps the statement inside the fragment where JavaScript's
sort comparator is well-defined. -/
theorem latestCycle_resolver_amended (sysOff : Int) (history : List Reading) (cm : String)
    (hcm : cm ≠ "") (hvalid : ∀ r ∈ history, r.date.valid = true) :
    latestCycle sysOff history none = none ∧
    latestCycle sysOff history (some "") = none ∧
    (latestCycle sysOff history (some cm) = none ↔
      ∀ r ∈ history, effectiveCycle sysOff r ≠ cm) ∧
    (∀ r, latestCycle sysOff history (some cm) = some r →
      r ∈ history ∧ effectiveCycle sysOff r = cm ∧
      ∀ q ∈ history, effectiveCycle sysOff q = cm → q.date.time ≤ r.date.time) := by
  haveI instTot : IsTotal Reading (fun a b => b.date.time ≤ a.date.time) :=
    ⟨fun a b => le_total b.date.time a.date.time⟩
  haveI instTrans : IsTrans Reading (fun a b => b.date.time ≤ a.date.time) :=
    ⟨fun a b c h1 h2 => le_trans h2 h1⟩
  have hperm : List.Perm (sortNewestFirst history) history := by
    unfold sortNewestFirst
    exact List.perm_insertionSort _ history
  have hsorted : List.Sorted (fun a b : Reading => b.date.time ≤ a.date.time)
      (sortNewestFirst history) := by
    unfold sortNewestFirst
    exact List.sorted_insertionSort _ history
  have hfind : latestCycle sysOff history (some cm)
      = (sortNewestFirst history).find? (fun r => isRowInCycle sysOff (some r) (some cm)) := by
    simp [latestCycle, hcm]
  refine ⟨rfl, by simp [latestCycle], ?_, ?_⟩
  · rw [hfind, List.find?_eq_none]
    constructor
    · intro h r hr heff
      have hmem : r ∈ sortNewestFirst history := hperm.mem_iff.mpr hr
      have hne := h r hmem
      rw [isRowInCycle_eq_effectiveCycle sysOff r cm hcm] at hne
      exact hne (by simp [heff])
    · intro h r hr
      rw [isRowInCycle_eq_effectiveCycle sysOff r cm hcm]
      simp
      exact h r (hperm.mem_iff.mp hr)
  · intro r hfound
    rw [hfind] at hfound
    obtain ⟨hpr, as, bs, hLdecomp, hprev⟩ := List.find?_eq_some.mp hfound
    have hrL : r ∈ sortNewestFirst history := by rw [hLdecomp]; simp
    have heffr : effectiveCycle sysOff r = cm := by
      rw [isRowInCycle_eq_effectiveCycle sysOff r cm hcm] at hpr
      simpa using hpr
    refine ⟨hperm.mem_iff.mp hrL, heffr, ?_⟩
    intro q hq heffq
    have hqL : q ∈ sortNewestFirst history := hperm.mem_iff.mpr hq
    rw [hLdecomp] at hqL
    rcases List.mem_append.mp hqL with hqas | hqcons
    · exfalso
      have hnq := hprev q hqas
      rw [isRowInCycle_eq_effectiveCycle sysOff q cm hcm] at hnq
      simp [heffq] at hnq
    · rcases List.mem_cons.mp hqcons with rfl | hqbs
      · exact le_refl _
      · have hs2 := hsorted
        rw [hLdecomp] at hs2
        exact (List.pairwise_cons.mp (List.pairwise_append.mp hs2).2.1).1 q hqbs

/-- Witness for the amended C1 theorem on a concrete two-row history. -/
theorem latestCycle_resolver_amended_witness :
    effectiveCycle 0 { room := "A1-01", date := ⟨true, 100⟩, id := 2, cycle := some "2026-03" }
      = "2026-03" := by
  have h := latestCycle_resolver_amended 0
    [{ room := "A1-01", date := ⟨true, 50⟩, id := 1, cycle := some "2026-02" },
     { room := "A1-01", date := ⟨true, 100⟩, id := 2, cycle := some "2026-03" }]
    "2026-03" (by decide) (by decide)
  exact (h.2.2.2 { room := "A1-01", date := ⟨true, 100⟩, id := 2, cycle := some "2026-03" }
    (by decide)).2.1

end RoomPage

namespace SyncModel

open RoomPage

theorem overlappedRun_eq (d1 d2 : List Reading) (s0 : SyncState) :
    overlappedRun d1 d2 s0 =
      ⟨s0.seq + 1 + 1, false, (sortNewestFirst d1).take 24, (sortNewestFirst d1).take 24⟩ := by
  have hne : ¬(s0.seq + 1 = s0.seq + 1 + 1) := by omega
  simp [overlappedRun, startSync, applyHistoryResult, finishSync, hne]

/-- C2 counterexample: in the overlapped schedule (run #1 starts, run #2
starts and completes, then run #1's fetch resolves late), the final history
is run #1's stale data, not run #2's — applying run #1's result is not a
no-op, because the sequence check does not guard the data application. -/
theorem staleSync_cex :
    (overlappedRun
        [{ room := "A1-01", date := ⟨true, 5⟩, id := 1 }]
        [{ room := "A1-01", date := ⟨true, 9⟩, id := 2 }]
        ⟨0, false, [], []⟩).history
      = [{ room := "A1-01", date := ⟨true, 5⟩, id := 1 }] ∧
    (overlappedRun
        [{ room := "A1-01", date := ⟨true, 5⟩, id := 1 }]
        [{ room := "A1-01", date := ⟨true, 9⟩, id := 2 }]
        ⟨0, false, [], []⟩).history
      ≠ (sortNewestFirst [{ room := "A1-01", date := ⟨true, 9⟩, id := 2 }]).take 24 := by
  exact ⟨by decide, by decide⟩

/-- C2 (amended): when two background syncs overlap and run #1 completes
after run #2, the sequence counter discards only run #1's guarded tail (the
`syncing` flag / toast update — that step is a strict no-op on the state),
while run #1's fetched history is applied to the in-memory state and the
local cache unconditionally at completion time, so the final state reflects
run #1's (stale) data and the `syncing` flag reflects run #2's guard. -/
theorem staleSync_amended (d1 d2 : List Reading) (s0 : SyncState) :
    (overlappedRun d1 d2 s0).history = (sortNewestFirst d1).take 24 ∧
    (overlappedRun d1 d2 s0).cacheHistory = (sortNewestFirst d1).take 24 ∧
    (overlappedRun d1 d2 s0).syncing = false ∧
    finishSync (startSync s0).2
        (applyHistoryResult d1
          (finishSync (startSync (startSync s0).1).2
            (applyHistoryResult d2 (startSync (startSync s0).1).1)))
      = applyHistoryResult d1
          (finishSync (startSync (startSync s0).1).2
            (applyHistoryResult d2 (startSync (startSync s0).1).1)) := by
  refine ⟨by rw [overlappedRun_eq], by rw [overlappedRun_eq], by rw [overlappedRun_eq], ?_⟩
  have hne : ¬(s0.seq + 1 = s0.seq + 1 + 1) := by omega
  simp [startSync, applyHistoryResult, finishSync, hne]

end SyncModel

namespace RoomPage

/-- C5: enqueueing a delete whose `(room, target.id, target.date)` triple is
already queued leaves the outbox unchanged, so enqueueing the same delete
twice starting from a state with no entry for the triple yields exactly one
queued item for it. -/
theorem enqueueDelete_dedup (room : String) (target : DeleteTarget) (now1 now2 : Int)
    (list : List DeleteOutboxItem) (hroom : room ≠ "") :
    (list.any (matchesDelete room target) = true →
      enqueueDelete room target now1 list = list) ∧
    ((list.filter (matchesDelete room target)).length = 0 →
      ((enqueueDelete room target now2 (enqueueDelete room target now1 list)).filter
          (matchesDelete room target)).length = 1) := by
  constructor
  · intro h
    simp [enqueueDelete, hroom, h]
  · intro h0
    have hfe : list.filter (matchesDelete room target) = [] := List.length_eq_zero.mp h0
    have hnone : list.any (matchesDelete room target) = false := by
      cases hb : list.any (matchesDelete room target) with
      | false => rfl
      | true =>
        obtain ⟨x, hx, hpx⟩ := List.any_eq_true.mp hb
        have hmemf : x ∈ list.filter (matchesDelete room target) :=
          List.mem_filter.mpr ⟨hx, hpx⟩
        rw [hfe] at hmemf
        simp at hmemf
    have h1 : enqueueDelete room target now1 list
        = (⟨room, target, now1, 0⟩ :: list).take 80 := by
      simp [enqueueDelete, hroom, hnone]
    have hmatchnew : matchesDelete room target ⟨room, target, now1, 0⟩ = true := by
      simp [matchesDelete]
    have hmem : (⟨room, target, now1, 0⟩ : DeleteOutboxItem)
        ∈ (⟨room, target, now1, 0⟩ :: list).take 80 := by
      rw [show (80 : Nat) = 79 + 1 from rfl, List.take_succ_cons]
      exact List.mem_cons_self _ _
    have hany2 : ((⟨room, target, now1, 0⟩ :: list).take 80).any (matchesDelete room target)
        = true :=
      List.any_eq_true.mpr ⟨_, hmem, hmatchnew⟩
    have h2 : enqueueDelete room target now2 ((⟨room, target, now1, 0⟩ :: list).take 80)
        = (⟨room, target, now1, 0⟩ :: list).take 80 := by
      unfold enqueueDelete
      rw [if_neg hroom, if_pos hany2]
    rw [h1, h2]
    rw [show (80 : Nat) = 79 + 1 from rfl, List.take_succ_cons]
    rw [List.filter_cons_of_pos hmatchnew]
    have hsub : List.Sublist ((list.take 79).filter (matchesDelete room target))
        (list.filter (matchesDelete room target)) :=
      List.Sublist.filter _ (List.take_sublist 79 list)
    rw [hfe] at hsub
    rw [List.sublist_nil.mp hsub]
    rfl

/-- C10: every enqueue keeps the persisted delete outbox at 80 items or
fewer and the write outbox at 120 or fewer; an enqueue that actually inserts
produces exactly `take cap (newItem :: old)`, i.e. overflow silently drops
the oldest queued items (the tail of the list, since new items are
prepended). -/
theorem outbox_bounds (room : String) (target : DeleteTarget) (payload : WritePayload)
    (newId : String) (dnow wnow : Int) (dlist : List DeleteOutboxItem)
    (wlist : List WriteOutboxItem) :
    ((dlist.length ≤ 80 → (enqueueDelete room target dnow dlist).length ≤ 80) ∧
     (room ≠ "" → dlist.any (matchesDelete room target) = false →
       enqueueDelete room target dnow dlist = (⟨room, target, dnow, 0⟩ :: dlist).take 80)) ∧
    ((wlist.length ≤ 120 → (enqueueWrite payload newId wnow wlist).length ≤ 120) ∧
     (payload.room ≠ "" →
       enqueueWrite payload newId wnow wlist = (⟨newId, wnow, 0, payload⟩ :: wlist).take 120)) := by
  refine ⟨⟨?_, ?_⟩, ⟨?_, ?_⟩⟩
  · intro h
    unfold enqueueDelete
    split_ifs
    · exact h
    · exact h
    · simp [List.length_take]
  · intro h1 h2
    simp [enqueueDelete, h1, h2]
  · intro h
    unfold enqueueWrite
    split_ifs
    · exact h
    · simp [List.length_take]
  · intro h
    simp [enqueueWrite, h]

/-- Witness for the C5 dedup theorem on a concrete outbox. -/
theorem enqueueDelete_dedup_witness :
    ((enqueueDelete "A1-01" ⟨7, "2026-03-01"⟩ 11
        (enqueueDelete "A1-01" ⟨7, "2026-03-01"⟩ 10
          [⟨"B2-02", ⟨7, "2026-03-01"⟩, 1, 0⟩])).filter
        (matchesDelete "A1-01" ⟨7, "2026-03-01"⟩)).length = 1 :=
  (enqueueDelete_dedup "A1-01" ⟨7, "2026-03-01"⟩ 10 11
    [⟨"B2-02", ⟨7, "2026-03-01"⟩, 1, 0⟩] (by decide)).2 (by decide)

/-- Witness for the C10 bounds theorem on concrete outboxes. -/
theorem outbox_bounds_witness :
    (enqueueDelete "A1-01" ⟨7, "2026-03-01"⟩ 10 []).length ≤ 80 ∧
    (enqueueWrite ⟨WriteAction.save, "A1-01", some 120, some 45, "", none⟩ "id1" 10 []).length
      ≤ 120 :=
  ⟨((outbox_bounds "A1-01" ⟨7, "2026-03-01"⟩ ⟨WriteAction.save, "A1-01", some 120, some 45, "", none⟩
      "id1" 10 10 [] []).1).1 (by decide),
   ((outbox_bounds "A1-01" ⟨7, "2026-03-01"⟩ ⟨WriteAction.save, "A1-01", some 120, some 45, "", none⟩
      "id1" 10 10 [] []).2).1 (by decide)⟩

end RoomPage

namespace RoomPage

theorem flushStep_other {outcome : WriteOutboxItem → FlushOutcome}
    {q : List WriteOutboxItem} {it : WriteOutboxItem} {i : String} (h : ¬ it.id = i) :
    (flushStep outcome q it).filter (fun x => x.id == i)
      = q.filter (fun x => x.id == i) := by
  unfold flushStep
  by_cases hok : outcomeOk (outcome it) = true
  · rw [if_pos hok]
    induction q with
    | nil => rfl
    | cons x xs ih =>
      by_cases hx : x.id = it.id <;> by_cases hxi : x.id = i <;>
        simp_all [List.filter_cons, bumpTries]
  · rw [if_neg hok]
    induction q with
    | nil => rfl
    | cons x xs ih =>
      by_cases hx : x.id = it.id <;> by_cases hxi : x.id = i <;>
        simp_all [List.filter_cons, bumpTries]

theorem flushStep_self_ok {outcome : WriteOutboxItem → FlushOutcome}
    {q : List WriteOutboxItem} {it : WriteOutboxItem}
    (hok : outcomeOk (outcome it) = true) :
    (flushStep outcome q it).filter (fun x => x.id == it.id) = [] := by
  unfold flushStep
  rw [if_pos hok]
  induction q with
  | nil => rfl
  | cons x xs ih =>
    by_cases hx : x.id = it.id <;> simp_all [List.filter_cons]

theorem flushStep_self_bump {outcome : WriteOutboxItem → FlushOutcome}
    {q : List WriteOutboxItem} {it : WriteOutboxItem}
    (hng : outcomeOk (outcome it) = false) :
    (flushStep outcome q it).filter (fun x => x.id == it.id)
      = (q.filter (fun x => x.id == it.id)).map bumpTries := by
  unfold flushStep
  rw [hng]
  simp only [Bool.false_eq_true, if_false]
  induction q with
  | nil => rfl
  | cons x xs ih =>
    by_cases hx : x.id = it.id <;> simp_all [List.filter_cons, bumpTries]

theorem flushRun_other {outcome : WriteOutboxItem → FlushOutcome}
    (its : List WriteOutboxItem) (q : List WriteOutboxItem) (i : String)
    (h : ∀ it ∈ its, ¬ it.id = i) :
    (its.foldl (flushStep outcome) q).filter (fun x => x.id == i)
      = q.filter (fun x => x.id == i) := by
  induction its generalizing q with
  | nil => rfl
  | cons it rest ih =>
    rw [List.foldl_cons]
    rw [ih (flushStep outcome q it) (fun a ha => h a (List.mem_cons_of_mem _ ha))]
    exact flushStep_other (h it (List.mem_cons_self _ _))

/-- C3: in one flush attempt over a queue of distinct-id items, a processed
item is removed from the persisted queue exactly when its attempt's response
is the success envelope, and on any other outcome (network error, malformed
JSON, `ok: false`) it remains queued with `tries` incremented by exactly
one. -/
theorem flushWriteOutbox_convergence (outcome : WriteOutboxItem → FlushOutcome)
    (q : List WriteOutboxItem) (item : WriteOutboxItem) (hmem : item ∈ q)
    (hids : (q.map (fun x => x.id)).Nodup) :
    (outcomeOk (outcome item) = true →
      (flushWriteOutbox outcome q).filter (fun x => x.id == item.id) = []) ∧
    (outcomeOk (outcome item) = false →
      (flushWriteOutbox outcome q).filter (fun x => x.id == item.id)
        = [bumpTries item]) := by
  obtain ⟨as, bs, hdecomp⟩ := List.append_of_mem (List.mem_reverse.mpr hmem)
  have hrevids : ((q.reverse).map (fun x => x.id)).Nodup := by
    rw [List.map_reverse]
    exact List.nodup_reverse.mpr hids
  rw [hdecomp, List.map_append, List.map_cons] at hrevids
  obtain ⟨hnas, hnitembs, hdisj⟩ := List.nodup_append.mp hrevids
  have hbs : ∀ b ∈ bs, ¬ b.id = item.id := by
    intro b hb he
    exact (List.nodup_cons.mp hnitembs).1 (by rw [← he]; exact List.mem_map_of_mem _ hb)
  have has : ∀ a ∈ as, ¬ a.id = item.id := by
    intro a ha he
    exact hdisj (List.mem_map_of_mem _ ha) (by simp [he])
  have hq : q = bs.reverse ++ item :: as.reverse := by
    have h0 := congrArg List.reverse hdecomp
    rw [List.reverse_reverse] at h0
    rw [h0]
    simp [List.reverse_append]
  have hbase : q.filter (fun x => x.id == item.id) = [item] := by
    rw [hq, List.filter_append, List.filter_cons_of_pos (by simp)]
    have e1 : bs.reverse.filter (fun x => x.id == item.id) = [] := by
      rw [List.filter_eq_nil]
      intro x hx
      simp [hbs x (List.mem_reverse.mp hx)]
    have e2 : as.reverse.filter (fun x => x.id == item.id) = [] := by
      rw [List.filter_eq_nil]
      intro x hx
      simp [has x (List.mem_reverse.mp hx)]
    rw [e1, e2]
    rfl
  constructor
  · intro hok
    unfold flushWriteOutbox
    rw [hdecomp, List.foldl_append, List.foldl_cons]
    rw [flushRun_other bs _ item.id hbs]
    exact flushStep_self_ok hok
  · intro hng
    unfold flushWriteOutbox
    rw [hdecomp, List.foldl_append, List.foldl_cons]
    rw [flushRun_other bs _ item.id hbs]
    rw [flushStep_self_bump hng]
    rw [flushRun_other as q item.id has]
    rw [hbase]
    rfl

/-- Witness for the C3 flush theorem: a two-item queue where item `"a"` is
acknowledged and removed. -/
theorem flushWriteOutbox_convergence_witness :
    (flushWriteOutbox
        (fun it => if it.id == "a" then FlushOutcome.reply true else FlushOutcome.networkError)
        [⟨"a", 0, 0, ⟨WriteAction.save, "A1-01", some 120, some 45, "", none⟩⟩,
         ⟨"b", 1, 0, ⟨WriteAction.update, "A1-01", some 121, none, "", none⟩⟩]).filter
      (fun x => x.id == "a") = [] :=
  (flushWriteOutbox_convergence
    (fun it => if it.id == "a" then FlushOutcome.reply true else FlushOutcome.networkError)
    [⟨"a", 0, 0, ⟨WriteAction.save, "A1-01", some 120, some 45, "", none⟩⟩,
     ⟨"b", 1, 0, ⟨WriteAction.update, "A1-01", some 121, none, "", none⟩⟩]
    ⟨"a", 0, 0, ⟨WriteAction.save, "A1-01", some 120, some 45, "", none⟩⟩
    (by decide) (by decide)).1 (by decide)

end RoomPage

namespace MeterApi

open VtptMeter

/-- C8: a POST to the meter API whose action resolves to `cycleSet` and whose
PIN resolves to a valid non-admin actor is rejected with HTTP 403 and
`{ ok: false }`; no request is forwarded to the remote script and the server
cache is untouched, so a non-admin identity cannot change the cycle key. -/
theorem cycleSet_non_admin_rejected (pinsEnv adminEnv header : Option String)
    (body : PostBody) (up : Except Unit (Nat × Bool)) (c : Cache) (actor : String)
    (hact : jsTrim (strOr body.action "save") = "cycleSet")
    (hauth : requirePinActor pinsEnv adminEnv header = .authOk actor false) :
    (meterPost pinsEnv adminEnv header body up c).status = 403 ∧
    (meterPost pinsEnv adminEnv header body up c).ok = false ∧
    (meterPost pinsEnv adminEnv header body up c).forwarded = none ∧
    (meterPost pinsEnv adminEnv header body up c).cache = c := by
  have hadm : requireAdmin pinsEnv adminEnv header
      = .authErr 403 "Forbidden (admin only)" := by
    unfold requireAdmin
    rw [hauth]
  have hcore : meterPostCore pinsEnv adminEnv header body up = ⟨403, false, none⟩ := by
    simp [meterPostCore, hact, hadm]
  refine ⟨?_, ?_, ?_, ?_⟩ <;> simp [meterPost, postClears, hcore]

/-- Witness for the C8 theorem with a concrete PIN configuration in which
PIN 2222 resolves to a non-admin actor. -/
theorem cycleSet_non_admin_rejected_witness :
    (meterPost (some "1111:Masie,2222:Brother") (some "1111") (some "2222")
        { action := some "cycleSet", month := some "2026-04" }
        (Except.ok (200, true)) []).status = 403 ∧
    (meterPost (some "1111:Masie,2222:Brother") (some "1111") (some "2222")
        { action := some "cycleSet", month := some "2026-04" }
        (Except.ok (200, true)) []).forwarded = none :=
  ⟨(cycleSet_non_admin_rejected (some "1111:Masie,2222:Brother") (some "1111") (some "2222")
      { action := some "cycleSet", month := some "2026-04" } (Except.ok (200, true)) []
      "Brother" (by decide) (by decide)).1,
   (cycleSet_non_admin_rejected (some "1111:Masie,2222:Brother") (some "1111") (some "2222")
      { action := some "cycleSet", month := some "2026-04" } (Except.ok (200, true)) []
      "Brother" (by decide) (by decide)).2.2.1⟩

/-- C9: whenever a POST handled by the meter API is forwarded upstream and
acknowledged with a truthy `ok` (save, update, delete, or cycleSet), the
entire in-memory GET cache is cleared: the cache state after any sequence of
requests containing such a POST equals the state produced by the
post-write requests alone starting from the empty cache, so no later GET can
be served from an entry stored before that successful write. -/
theorem post_ok_clears_cache_coherence (xs ys : List MeterEvent) (c0 : Cache)
    (pe ae header : Option String) (b : PostBody) (up : Except Unit (Nat × Bool))
    (hack : postAck (.postReq pe ae header b up) = true) :
    runEvents c0 (xs ++ .postReq pe ae header b up :: ys) = runEvents cacheClearAll ys := by
  unfold runEvents
  rw [List.foldl_append, List.foldl_cons]
  have hc : postClears pe ae header b up = true := by simpa [postAck] using hack
  have hstep : stepEvent (List.foldl stepEvent c0 xs) (.postReq pe ae header b up)
      = cacheClearAll := by
    simp [stepEvent, meterPost, hc]
  rw [hstep]

/-- Witness for the C9 theorem: a cacheable GET fills the cache, then an
admin `cycleSet` acknowledged `{ ok: true }` clears it. -/
theorem post_ok_clears_cache_coherence_witness :
    runEvents []
        ([MeterEvent.getReq "latest" "u1" 0 (Except.ok 200)]
          ++ MeterEvent.postReq (some "1111:Masie") (some "1111") (some "1111")
              { action := some "cycleSet", month := some "2026-04" }
              (Except.ok (200, true)) :: [])
      = runEvents cacheClearAll [] :=
  post_ok_clears_cache_coherence [MeterEvent.getReq "latest" "u1" 0 (Except.ok 200)] [] []
    (some "1111:Masie") (some "1111") (some "1111")
    { action := some "cycleSet", month := some "2026-04" } (Except.ok (200, true)) (by decide)

end MeterApi
